/-
Verification of the anci command-line framework against its specification.

The development shallowly embeds the Python source:
  * src/anci/_tree.py      — the command tree (registration, validation, dispatch)
  * src/anci/_main.py      — the entry point wiring parsing to dispatch
  * src/anci/handlers/     — the type / constraint handler registry
  * src/anci/_action.py    — the container argparse actions

Python dict-based tree nodes become an inductive `Node`; handler dispatch
becomes total functions returning `Except` for every `raise`; the closures a
handler build returns become first-order rule descriptions together with
interpreters that encode the closure bodies and the argparse driving
(per-token `type` conversion before the custom action runs).
-/

import Mathlib

namespace Anci

/-! ## Command tree (src/anci/_tree.py)

A node of `COMMAND_TREE`.  The Python tree is a dict; the keys `_func`,
`_base_func`, `_name`, `_is_base` and `_subcommands` are modelled as fields.
`subs = none` models the absence of the `_subcommands` key (Python code tests
membership of that key explicitly); once present it is a `defaultdict`, so a
lookup of a missing segment yields a fresh empty node.  Handler functions are
opaque and identified by a natural number. -/

inductive Node where
  | node (func : Option Nat) (baseFunc : Option Nat) (name : Option String)
         (is_base : Bool) (subs : Option (List (String × Node)))

def Node.func : Node → Option Nat
  | .node f _ _ _ _ => f

def Node.baseFunc : Node → Option Nat
  | .node _ b _ _ _ => b

def Node.name : Node → Option String
  | .node _ _ n _ _ => n

def Node.isBase : Node → Bool
  | .node _ _ _ b _ => b

def Node.subs : Node → Option (List (String × Node))
  | .node _ _ _ _ s => s

/-- Node freshly produced by the `defaultdict(dict)`: an empty Python dict. -/
def emptyNode : Node := .node none none none false none

/-- Association-list lookup, modelling a Python dict read. -/
def alookup : List (String × Node) → String → Option Node
  | [], _ => none
  | (k, v) :: rest, s => if k = s then some v else alookup rest s

/-- Association-list update, modelling a Python dict write (replaces the
existing binding or appends a new one). -/
def aset (s : String) (v : Node) : List (String × Node) → List (String × Node)
  | [] => [(s, v)]
  | (k, w) :: rest => if k = s then (s, v) :: rest else (k, w) :: aset s v rest

/-- Traversal shared by `register_base_command` and `register_command`:
walk the segments, creating the `_subcommands` dict and missing children on
the way (the Python loop body), and apply `upd` to the final node. -/
def storePath (upd : Node → Node) : List String → Node → Node
  | [], n => upd n
  | s :: rest, n =>
      let sl := n.subs.getD []
      let child := (alookup sl s).getD emptyNode
      .node n.func n.baseFunc n.name n.isBase (some (aset s (storePath upd rest child) sl))

/-- Mutation performed by `register_base_command` at the target node: sets
`_base_func`, `_name` and `_is_base = True` (the `_func` key is untouched). -/
def markBase (f : Nat) (fname : String) : Node → Node
  | .node fn _ _ _ s => .node fn (some f) (some fname) true s

/-- Mutation performed by `register_command` at the target node: sets `_func`
and `_name` (other keys untouched). -/
def markLeaf (f : Nat) (fname : String) : Node → Node
  | .node _ b _ ib s => .node (some f) b (some fname) ib s

/-- Embedding of `register_base_command` (src/anci/_tree.py:163-205; the dead
inner `decorator` it also defines has no effect on the tree). -/
def register_base_command (names : List String) (f : Nat) (fname : String) (t : Node) : Node :=
  storePath (markBase f fname) names t

/-- Walk the tree along a path the way `validate_parent_commands` does:
`none` when some node on the way lacks the `_subcommands` key; a missing
segment inside an existing `_subcommands` dict yields `emptyNode`
(defaultdict semantics). -/
def walk : Node → List String → Option Node
  | n, [] => some n
  | n, s :: rest =>
      match n.subs with
      | none => none
      | some sl => walk ((alookup sl s).getD emptyNode) rest

/-- Check of one parent prefix inside `validate_parent_commands`
(src/anci/_tree.py:284-306).  The empty prefix is skipped; otherwise both
raise sites produce `MissingBaseCommandError` naming the prefix, modelled as
`Except.error p`. -/
def checkPrefix (t : Node) (p : List String) : Except (List String) Unit :=
  if p = [] then .ok () else
    match walk t p with
    | none => .error p
    | some n => if n.baseFunc = none ∧ n.func = none then .error p else .ok ()

/-- Loop of `validate_parent_commands`: checks the prefixes `names.take i`
for `i = 0, 1, …, names.length - 1` and stops at the first failure. -/
def validateFrom (t : Node) (names : List String) (i : Nat) : Except (List String) Unit :=
  if i < names.length then
    match checkPrefix t (names.take i) with
    | .error e => .error e
    | .ok _ => validateFrom t names (i + 1)
  else .ok ()
termination_by names.length - i

/-- Embedding of `validate_parent_commands` (src/anci/_tree.py:264-306). -/
def validate_parent_commands (t : Node) (names : List String) : Except (List String) Unit :=
  validateFrom t names 0

/-- Embedding of `register_command` (src/anci/_tree.py:227-261): validate all
proper prefixes, then store the function along the path.  An error means the
Python exception propagated and the tree was not modified. -/
def register_command (names : List String) (f : Nat) (fname : String) (t : Node) :
    Except (List String) Node := do
  let _ ← validate_parent_commands t names
  pure (storePath (markLeaf f fname) names t)

/-- Fetch the node a registration path leads to, with defaultdict semantics
(missing pieces read as empty nodes); used to describe `storePath` results. -/
def fetch : Node → List String → Node
  | n, [] => n
  | n, s :: rest => fetch ((alookup (n.subs.getD []) s).getD emptyNode) rest

/-- Boolean check: the node at prefix `p` exists and carries `_base_func` or
`_func`. -/
def registeredBaseOrLeafB (t : Node) (p : List String) : Bool :=
  match walk t p with
  | none => false
  | some n => n.baseFunc.isSome || n.func.isSome

/-- Proposition: the node at prefix `p` exists and is registered as a Base or
Leaf command (it carries `_base_func` or `_func`). -/
def registeredBaseOrLeaf (t : Node) (p : List String) : Prop :=
  ∃ n, walk t p = some n ∧ (n.baseFunc ≠ none ∨ n.func ≠ none)

instance (t : Node) (p : List String) : Decidable (registeredBaseOrLeaf t p) :=
  decidable_of_iff (registeredBaseOrLeafB t p = true) (by
    unfold registeredBaseOrLeafB registeredBaseOrLeaf
    match walk t p with
    | none => simp
    | some n =>
        simp only [Bool.or_eq_true, Option.isSome_iff_ne_none, Option.some.injEq]
        constructor
        · intro h; exact ⟨n, rfl, h⟩
        · rintro ⟨m, rfl, h⟩; exact h)

/-! ## Parsed namespace and dispatcher (src/anci/_tree.py:566-637, src/anci/_main.py)

The `argparse.Namespace` reaching `runner` is a finite mapping from attribute
names to Python values (`vars(args)`); `hasattr` is key presence. -/

inductive ContainerKind where
  | listK | tupleK | setK
deriving DecidableEq, Repr

/-- Elements of parsed container values. -/
inductive Elem where
  | numE (q : Rat)
  | strE (s : String)
  | boolE (b : Bool)
  | bytesE (s : String)
  | pathE (s : String)
  | charsE (s : String)
  | opaqueE (id : Nat) (s : String)
deriving DecidableEq, Repr

/-- Python values a parsed namespace can hold. -/
inductive PyVal where
  | noneV
  | boolV (b : Bool)
  | strV (s : String)
  | numV (q : Rat)
  | bytesV (s : String)
  | pathV (s : String)
  | contV (k : ContainerKind) (es : List Elem)
  | funcV (id : Nat)
  | strListV (ss : List String)
  | opaqueV (id : Nat) (s : String)
deriving DecidableEq, Repr

/-- Python truthiness, for the test on `args.is_base`. -/
def truthy : PyVal → Bool
  | .noneV => false
  | .boolV b => b
  | .strV s => s ≠ ""
  | .numV q => q ≠ 0
  | .bytesV s => s ≠ ""
  | .pathV _ => true
  | .contV _ es => es ≠ []
  | .funcV _ => true
  | .strListV ss => ss ≠ []
  | .opaqueV _ _ => true

/-- Namespace attribute lookup (a Python dict read; `none` means the
attribute is absent, i.e. `hasattr` is false). -/
def alookupV : List (String × PyVal) → String → Option PyVal
  | [], _ => none
  | (k, v) :: rest, s => if k = s then some v else alookupV rest s

/-- Embedding of `find_selected_function` (src/anci/_tree.py:566-586):
`args.func` when the attribute exists, Python `None` otherwise. -/
def find_selected_function (a : List (String × PyVal)) : PyVal :=
  (alookupV a "func").getD .noneV

/-- Character-list prefix test (Python `str.startswith`). -/
def charsPrefix : List Char → List Char → Bool
  | [], _ => true
  | _ :: _, [] => false
  | c :: cs, d :: ds => c = d && charsPrefix cs ds

/-- Keys popped by `runner` before the handler call: the four listed keys
plus every key starting with the nested-subcommand prefix
(src/anci/_tree.py:630-634). -/
def isBookkeepingKey (k : String) : Bool :=
  k = "func" || k = "command" || k = "command_path" || k = "is_base" ||
    charsPrefix "subcmd_".data k.data

/-- Observable outcome of `runner`. -/
inductive RunOutcome where
  | helpExit (status : Nat)
  | baseCall (f : PyVal)
  | leafCall (f : PyVal) (kwargs : List (String × PyVal))
deriving DecidableEq, Repr

/-- Final branch of `runner`: strip the bookkeeping keys from a copy of
`vars(args)` and call `func(**func_args)`.  The handler result (supplied by
the semantic environment `env`) is computed and dropped — the Python code has
no `return` on this path, so `runner` returns `None`. -/
def runnerLeaf (env : PyVal → List (String × PyVal) → PyVal)
    (a : List (String × PyVal)) (f : PyVal) : RunOutcome × Option PyVal :=
  let kwargs := a.filter (fun kv => !(isBookkeepingKey kv.1))
  let _ := env f kwargs
  (.leafCall f kwargs, some .noneV)

/-- Embedding of `runner` (src/anci/_tree.py:589-637).  The second component
is the Python return value of `runner`; `none` there means `sys.exit` fired
(the first component records the exit status).  `env` gives each handler call
its result, so the embedding shows the result is discarded. -/
def runner (env : PyVal → List (String × PyVal) → PyVal)
    (a : List (String × PyVal)) : RunOutcome × Option PyVal :=
  match alookupV a "command" with
  | none => (.helpExit 0, none)
  | some .noneV => (.helpExit 0, none)
  | some _ =>
    match find_selected_function a with
    | .noneV => (.helpExit 1, none)
    | f =>
      match alookupV a "is_base" with
      | some b => if truthy b then (.baseCall f, some .noneV) else runnerLeaf env a f
      | none => runnerLeaf env a f

/-- Python return value of `main` (src/anci/_main.py:79-99): its last
statement is the bare call `runner(parser.parse_args(), parser)`, so `main`
returns `None` whenever `runner` returns at all, and propagates the exit
otherwise. -/
def mainReturn (env : PyVal → List (String × PyVal) → PyVal)
    (a : List (String × PyVal)) : Option PyVal :=
  (runner env a).2.map (fun _ => .noneV)

/-- Predicate: a command was selected (`hasattr(args, "command")` and
`args.command is not None`). -/
def commandSelected (a : List (String × PyVal)) : Bool :=
  match alookupV a "command" with
  | none => false
  | some .noneV => false
  | some _ => true

/-- Predicate: invocation metadata resolved (`find_selected_function` is not
`None`). -/
def funcResolved (a : List (String × PyVal)) : Bool :=
  find_selected_function a ≠ .noneV

/-- Predicate: the namespace carries a truthy `is_base` flag. -/
def baseFlagged (a : List (String × PyVal)) : Bool :=
  match alookupV a "is_base" with
  | some b => truthy b
  | none => false

/-! ## Declared parameter types (src/anci/handlers)

The type objects that can appear in an `anci.Arg` declaration.  Scalars,
bare (unsubscripted) builtin containers, subscripted containers with their
type-argument tuple, any other type (opaque, no handler), and `Annotated`
wrappers carrying `annotated_types` metadata.  Python flattens nested
`Annotated`, so the wrapped base is a plain type. -/

inductive ScalarTy where
  | intT | floatT | strT | boolT | bytesT | pathT
deriving DecidableEq, Repr

/-- Numeric base types accepted by the inequality and interval handlers. -/
inductive NumTy where
  | intN | floatN
deriving DecidableEq, Repr

/-- Type arguments of a subscripted container (the tuple `get_args` returns). -/
inductive ElemTy where
  | scalarE (s : ScalarTy)
  | rawContainerE (k : ContainerKind)
  | subscriptedE (k : ContainerKind) (id : Nat)
  | ellipsisE
  | otherE (id : Nat)
deriving DecidableEq, Repr

/-- Metadata instances from `annotated_types`, identified by their attribute
contents.  `lenM` carries `min_length` and the possibly-`None` valued
`max_length` attribute of `Len`.  `otherMeta` is metadata of a class with no
registered handler. -/
inductive Meta where
  | gtM (x : Rat)
  | geM (x : Rat)
  | ltM (x : Rat)
  | leM (x : Rat)
  | intervalM (gt ge lt le : Option Rat)
  | minLenM (n : Nat)
  | maxLenM (n : Nat)
  | lenM (minL : Nat) (maxL : Option Nat)
  | otherMeta (id : Nat)
deriving DecidableEq, Repr

/-- Plain (non-`Annotated`) declared types. -/
inductive BaseTy where
  | scalar (s : ScalarTy)
  | rawContainer (k : ContainerKind)
  | container (k : ContainerKind) (args : List ElemTy)
  | otherB (id : Nat)
deriving DecidableEq, Repr

/-- A declared parameter type: plain, or `Annotated[base, m1, m2, …]`. -/
inductive ArgTy where
  | plain (b : BaseTy)
  | annotated (base : BaseTy) (metas : List Meta)
deriving DecidableEq, Repr

/-- Handler classes stored in `TYPE_HANDLERS` (src/anci/handlers/_type.py). -/
inductive HandlerCls where
  | floatH | intH | strH | boolH | bytesH | pathH
  | listH | tupleH | setH
deriving DecidableEq, Repr

/-- Scalar cast functions that exist as a `cast` class attribute.  Only the
float, int, str and Path handlers define one; the bool, bytes and container
handlers do not. -/
inductive CastTy where
  | intC | floatC | strC | pathC
deriving DecidableEq, Repr

/-- The `cast` attribute of a handler class; `none` models Python raising
`AttributeError` on access. -/
def castAttr : HandlerCls → Option CastTy
  | .floatH => some .floatC
  | .intH => some .intC
  | .strH => some .strC
  | .pathH => some .pathC
  | .boolH => none
  | .bytesH => none
  | .listH => none
  | .tupleH => none
  | .setH => none

/-- Handler registered for a scalar type. -/
def scalarHandler : ScalarTy → HandlerCls
  | .intT => .intH
  | .floatT => .floatH
  | .strT => .strH
  | .boolT => .boolH
  | .bytesT => .bytesH
  | .pathT => .pathH

/-- Handler registered for a container origin (both the builtin class and the
`typing` alias are registered to the same handler). -/
def containerHandler : ContainerKind → HandlerCls
  | .listK => .listH
  | .tupleK => .tupleH
  | .setK => .setH

/-- Lookup `TYPE_HANDLERS.get(arg_type)` — the exact-type probe.  Only bare
types are dict keys, so subscripted/`Annotated`/unknown types miss. -/
def typeHandlersGetExact : ArgTy → Option HandlerCls
  | .plain (.scalar s) => some (scalarHandler s)
  | .plain (.rawContainer k) => some (containerHandler k)
  | _ => none

/-- Lookup `TYPE_HANDLERS[element_type]` for a container's element type
argument. -/
def typeHandlersGetElem : ElemTy → Option HandlerCls
  | .scalarE s => some (scalarHandler s)
  | .rawContainerE k => some (containerHandler k)
  | .subscriptedE _ _ => none
  | .ellipsisE => none
  | .otherE _ => none

/-- The value of `typing.get_origin`. -/
inductive OriginV where
  | noneO
  | containerO (k : ContainerKind)
  | annotatedO
deriving DecidableEq, Repr

/-- Embedding of `typing.get_origin` on declared types: `None` for scalars,
bare builtin containers and opaque types; the container class for a
subscripted container; `Annotated` for annotated types. -/
def getOrigin : ArgTy → OriginV
  | .plain (.scalar _) => .noneO
  | .plain (.rawContainer _) => .noneO
  | .plain (.container k _) => .containerO k
  | .plain (.otherB _) => .noneO
  | .annotated _ _ => .annotatedO

/-- Lookup `TYPE_HANDLERS.get(origin)` — the origin fallback probe. -/
def typeHandlersGetOrigin : OriginV → Option HandlerCls
  | .containerO k => some (containerHandler k)
  | _ => none

/-- Whether `ANNOTATED_HANDLERS` has an entry for the metadata's class
(src/anci/handlers/_annotated.py registers Gt, Ge, Lt, Le, Interval, MaxLen,
MinLen and Len). -/
def registeredMeta : Meta → Bool
  | .otherMeta _ => false
  | _ => true

/-! ## Python numeric token parsing

Models the builtin `int(str)` and `float(str)` casts on plain decimal
literals, the only forms the verified properties exercise (exponents,
`inf`/`nan`, underscores and surrounding whitespace are outside the model).
Numeric values are represented as rationals; on the small literals appearing
in the claims this coincides with Python's int/float arithmetic. -/

def digitsVal (cs : List Char) : Nat :=
  cs.foldl (fun a c => a * 10 + (c.toNat - 48)) 0

def allDigits (cs : List Char) : Bool :=
  cs ≠ [] && cs.all Char.isDigit

/-- Parse an optionally signed run of digits, as `int(token)` does. -/
def pyInt (s : String) : Option Int :=
  match s.data with
  | '-' :: rest => if allDigits rest then some (-(digitsVal rest : Int)) else none
  | '+' :: rest => if allDigits rest then some (digitsVal rest : Int) else none
  | cs => if allDigits cs then some (digitsVal cs : Int) else none

/-- Parse an unsigned decimal literal with an optional point into a rational. -/
def pyFloatCore (cs : List Char) : Option Rat :=
  match cs.splitOn '.' with
  | [whole] => if allDigits whole then some (digitsVal whole : Rat) else none
  | [whole, frac] =>
      if (whole.all Char.isDigit && frac.all Char.isDigit) && (whole ≠ [] || frac ≠ []) then
        some ((digitsVal whole : Rat) + (digitsVal frac : Rat) / ((10 : Rat) ^ frac.length))
      else none
  | _ => none

/-- Parse an optionally signed decimal literal, as `float(token)` does. -/
def pyFloat (s : String) : Option Rat :=
  match s.data with
  | '-' :: rest => (pyFloatCore rest).map (fun q => -q)
  | '+' :: rest => pyFloatCore rest
  | cs => pyFloatCore cs

/-- Cast a token at a numeric base type (`int(value)` / `float(value)`). -/
def castNum : NumTy → String → Option Rat
  | .intN, s => (pyInt s).map (fun i => (i : Rat))
  | .floatN, s => pyFloat s

/-! ## Parsing and validation rules

A handler build returns an argparse configuration whose interesting content
is a per-token `type` callable or an action over the token list.  Those
closures are represented first-order (`ScalarParse` / `ContainerParse`) and
given meaning by the interpreters `runScalar` / `runContainer`, which also
encode how argparse drives them: a configured `type` is applied to every
token before the custom action runs, and exceptions either become parse
errors (from `type`) or propagate (from actions) — both reject the
invocation, modelled uniformly as `Except.error`. -/

inductive IneqOp where
  | gtO | geO | ltO | leO
deriving DecidableEq, Repr

/-- The `operator` module function a handler compares with. -/
def opHolds : IneqOp → Rat → Rat → Bool
  | .gtO, v, t => t < v
  | .geO, v, t => t ≤ v
  | .ltO, v, t => v < t
  | .leO, v, t => v ≤ t

inductive ParseErr where
  | badToken (token : String)
  | castCrash (token : String)
  | invalidBoolean (token : String)
  | notOp (name : String) (op : IneqOp) (threshold : Rat) (got : Rat)
  | elementNotOp (name : String) (op : IneqOp) (threshold : Rat) (got : Rat)
  | notGe (bound : Rat)
  | notGt (bound : Rat)
  | notLe (bound : Rat)
  | notLt (bound : Rat)
  | elementNotGe (name : String) (bound : Rat)
  | elementNotGt (name : String) (bound : Rat)
  | elementNotLe (name : String) (bound : Rat)
  | elementNotLt (name : String) (bound : Rat)
  | exactChars (name : String) (n : Nat)
  | minChars (name : String) (n : Nat)
  | maxChars (name : String) (n : Nat)
  | noneComparison
  | tooFew (n : Nat) (got : Nat)
  | tooMany (n : Nat) (got : Nat)
deriving DecidableEq, Repr

/-- First-order form of a scalar `type` callable in a build result. -/
inductive ScalarParse where
  | castOnly (c : CastTy)
  | boolParse
  | bytesParse
  | ineqScalar (name : String) (ty : NumTy) (op : IneqOp) (threshold : Rat)
  | intervalScalar (ty : NumTy) (lower : Option Rat) (lowerInc : Bool)
      (upper : Option Rat) (upperInc : Bool)
  | lenStr (name : String) (lengthA : Option Nat) (minA : Option Nat)
      (maxA : Option (Option Nat))
deriving DecidableEq, Repr

/-- First-order form of a container rule (`nargs="+"` plus an action). -/
inductive ContainerParse where
  | castContainer (c : CastTy)
  | ineqContainer (name : String) (ty : NumTy) (op : IneqOp) (threshold : Rat)
  | intervalContainer (name : String) (ty : NumTy) (lower : Option Rat) (lowerInc : Bool)
      (upper : Option Rat) (upperInc : Bool)
  | lenContainer (elem : ElemTy) (minA : Option Nat) (maxA : Option Nat)
deriving DecidableEq, Repr

/-- An argparse configuration as produced by `get_kwargs`: either a plain
single-token rule or a one-or-more rule wrapping results in a container. -/
inductive Kwargs where
  | scalarRule (p : ScalarParse)
  | containerRule (k : ContainerKind) (p : ContainerParse)
deriving DecidableEq, Repr

/-- Configuration-time errors.  Every constructor corresponds to one `raise`
site (or attribute/index fault) reached while building parser rules. -/
inductive ConfigErr where
  | noRegisteredHandler (ty : ArgTy)
  | invalidConstraintTarget (name : String)
  | intervalBothLower
  | intervalBothUpper
  | mustSpecifyElementType (k : ContainerKind) (name : String)
  | containerMismatch (name : String)
  | notHomogeneous (k : ContainerKind) (name : String)
  | noElementHandler (k : ContainerKind) (e : ElemTy)
  | noCastAttribute (h : HandlerCls)
  | indexError (name : String)
deriving DecidableEq, Repr

/-! ## Constraint handler builds (src/anci/handlers/_annotated.py) -/

/-- Embedding of `InequalityHandler.build` (lines 88-159).  The container
branch fires when `get_origin` is a container class; its element check reads
`get_args(annotated_type)[0]`, an `IndexError` on an empty argument tuple.
Otherwise the base type itself must be `int` or `float`. -/
def inequalityBuild (name : String) (base : BaseTy) (op : IneqOp) (threshold : Rat) :
    Except ConfigErr Kwargs :=
  match base with
  | .container k args =>
      match args.head? with
      | none => .error (.indexError name)
      | some (.scalarE .intT) => .ok (.containerRule k (.ineqContainer name .intN op threshold))
      | some (.scalarE .floatT) => .ok (.containerRule k (.ineqContainer name .floatN op threshold))
      | some _ => .error (.invalidConstraintTarget name)
  | .scalar .intT => .ok (.scalarRule (.ineqScalar name .intN op threshold))
  | .scalar .floatT => .ok (.scalarRule (.ineqScalar name .floatN op threshold))
  | _ => .error (.invalidConstraintTarget name)

/-- Embedding of `IntervalHandler.build` (lines 206-315): reject a doubly
specified bound, derive effective bounds and inclusivity, then branch on
container versus scalar exactly as the inequality handler does. -/
def intervalBuild (name : String) (base : BaseTy) (gt ge lt le : Option Rat) :
    Except ConfigErr Kwargs :=
  if gt.isSome && ge.isSome then .error .intervalBothLower
  else if lt.isSome && le.isSome then .error .intervalBothUpper
  else
    let lower := if gt.isSome then gt else ge
    let lowerInc := ge.isSome || gt.isNone
    let upper := if lt.isSome then lt else le
    let upperInc := le.isSome || lt.isNone
    match base with
    | .container k args =>
        match args.head? with
        | none => .error (.indexError name)
        | some (.scalarE .intT) =>
            .ok (.containerRule k (.intervalContainer name .intN lower lowerInc upper upperInc))
        | some (.scalarE .floatT) =>
            .ok (.containerRule k (.intervalContainer name .floatN lower lowerInc upper upperInc))
        | some _ => .error (.invalidConstraintTarget name)
    | .scalar .intT => .ok (.scalarRule (.intervalScalar .intN lower lowerInc upper upperInc))
    | .scalar .floatT => .ok (.scalarRule (.intervalScalar .floatN lower lowerInc upper upperInc))
    | _ => .error (.invalidConstraintTarget name)

/-- Embedding of `LenHandler.build` (lines 329-376), taking the metadata's
attributes: `lengthA` is the `length` attribute (no `annotated_types` class
defines one, so it is `none` whenever reached through `get_kwargs`), `minA`
the `min_length` attribute, and `maxA` the `max_length` attribute, whose
value can itself be Python `None` (the inner option).  The container branch
reads the attributes with `getattr(…, default=None)`, collapsing absence and
`None` — hence the `Option.join`. -/
def lenBuild (name : String) (base : BaseTy) (lengthA minA : Option Nat)
    (maxA : Option (Option Nat)) : Except ConfigErr Kwargs :=
  match base with
  | .container k args =>
      .ok (.containerRule k (.lenContainer (args.head?.getD (.scalarE .strT)) minA maxA.join))
  | .scalar .strT => .ok (.scalarRule (.lenStr name lengthA minA maxA))
  | .scalar .bytesT => .ok (.scalarRule (.lenStr name lengthA minA maxA))
  | _ => .error (.invalidConstraintTarget name)

/-! ## Type handler builds (src/anci/handlers/_type.py) -/

/-- The `get_args` tuple of a declared type.  Scalars, bare containers and
opaque types have no arguments; `containerBuild` is only ever reached with
plain types, so the annotated arm is a typing artifact. -/
def getArgs : ArgTy → List ElemTy
  | .plain (.container _ args) => args
  | _ => []

/-- Embedding of `BaseContainerHandler.build` (lines 157-213) for the handler
whose `container_type` is `k`: demand a non-empty argument tuple, a matching
origin, homogeneity up to `Ellipsis` against the first argument, a registered
handler for the element type, and finally read that handler's `cast` class
attribute (an `AttributeError` when the class defines none). -/
def containerBuild (k : ContainerKind) (name : String) (ty : ArgTy) :
    Except ConfigErr Kwargs :=
  if (getArgs ty).isEmpty then .error (.mustSpecifyElementType k name)
  else if getOrigin ty ≠ .containerO k then .error (.containerMismatch name)
  else if (getArgs ty).any
      (fun e => e ≠ (getArgs ty).headD .ellipsisE && e ≠ .ellipsisE) then
    .error (.notHomogeneous k name)
  else
    match typeHandlersGetElem ((getArgs ty).headD .ellipsisE) with
    | none => .error (.noElementHandler k ((getArgs ty).headD .ellipsisE))
    | some h =>
        match castAttr h with
        | none => .error (.noCastAttribute h)
        | some c => .ok (.containerRule k (.castContainer c))

/-- Dispatch `handler_cls().build(name, arg_type)` for a type handler class. -/
def buildType (h : HandlerCls) (name : String) (ty : ArgTy) : Except ConfigErr Kwargs :=
  match h with
  | .floatH => .ok (.scalarRule (.castOnly .floatC))
  | .intH => .ok (.scalarRule (.castOnly .intC))
  | .strH => .ok (.scalarRule (.castOnly .strC))
  | .boolH => .ok (.scalarRule .boolParse)
  | .bytesH => .ok (.scalarRule .bytesParse)
  | .pathH => .ok (.scalarRule (.castOnly .pathC))
  | .listH => containerBuild .listK name ty
  | .tupleH => containerBuild .tupleK name ty
  | .setH => containerBuild .setK name ty

/-- Dispatch `handler_cls().build(name, base_type, meta)` for the handler
registered on the metadata's class.  The `otherMeta` arm is unreachable from
`get_kwargs` (such metadata is never registered). -/
def buildAnnotated (name : String) (base : BaseTy) (m : Meta) : Except ConfigErr Kwargs :=
  match m with
  | .gtM x => inequalityBuild name base .gtO x
  | .geM x => inequalityBuild name base .geO x
  | .ltM x => inequalityBuild name base .ltO x
  | .leM x => inequalityBuild name base .leO x
  | .intervalM gt ge lt le => intervalBuild name base gt ge lt le
  | .minLenM n => lenBuild name base none (some n) none
  | .maxLenM n => lenBuild name base none none (some (some n))
  | .lenM a b => lenBuild name base none (some a) (some b)
  | .otherMeta _ => .error (.noRegisteredHandler (.annotated base [m]))

/-- Fall-through of `get_kwargs`: the two-tier `TYPE_HANDLERS` probe — the
exact type first, the `get_origin` result second — then the final
`TypeError` (src/anci/handlers/__init__.py:39-43). -/
def typeFallback (name : String) (ty : ArgTy) : Except ConfigErr Kwargs :=
  match (typeHandlersGetExact ty).orElse (fun _ => typeHandlersGetOrigin (getOrigin ty)) with
  | some h => buildType h name ty
  | none => .error (.noRegisteredHandler ty)

/-- Embedding of `get_kwargs` (src/anci/handlers/__init__.py:9-43).  For an
`Annotated` type the metadata entries are scanned in order and the first one
whose class has a registered handler wins; when none is registered the code
falls through to the `TYPE_HANDLERS` probes (which cannot succeed for an
`Annotated` object) and raises the final `TypeError`. -/
def get_kwargs (name : String) (ty : ArgTy) : Except ConfigErr Kwargs :=
  match ty with
  | .annotated base metas =>
      match metas.find? registeredMeta with
      | some m => buildAnnotated name base m
      | none => typeFallback name ty
  | .plain _ => typeFallback name ty

/-! ## Rule interpreters

These give the dynamic semantics of the built rules: what happens to the
user's string tokens at parse time. -/

instance exceptDecEq {e a : Type} [DecidableEq e] [DecidableEq a] : DecidableEq (Except e a)
  | .error x, .error y =>
      match decEq x y with
      | .isTrue h => .isTrue (by rw [h])
      | .isFalse h => .isFalse (fun hc => h (Except.error.inj hc))
  | .error _, .ok _ => .isFalse (fun hc => Except.noConfusion hc)
  | .ok _, .error _ => .isFalse (fun hc => Except.noConfusion hc)
  | .ok x, .ok y =>
      match decEq x y with
      | .isTrue h => .isTrue (by rw [h])
      | .isFalse h => .isFalse (fun hc => h (Except.ok.inj hc))

/-- Lowercase one character (Python `str.lower` restricted to ASCII, which
covers every token the boolean vocabulary compares against). -/
def charLower (c : Char) : Char :=
  if 65 ≤ c.toNat ∧ c.toNat ≤ 90 then Char.ofNat (c.toNat + 32) else c

/-- Python `token.lower()`. -/
def pyLower (s : String) : String :=
  ⟨s.data.map charLower⟩

/-- Embedding of `str_to_bool` inside `BoolHandler.build`
(src/anci/handlers/_type.py:110-117).  Argparse `type` callables receive the
raw token string, so the `isinstance(v, bool)` shortcut (for defaults) does
not apply. -/
def str_to_bool (v : String) : Except ParseErr Bool :=
  if ["true", "t", "yes", "1"].contains (pyLower v) then .ok true
  else if ["false", "f", "no", "0"].contains (pyLower v) then .ok false
  else .error (.invalidBoolean v)

/-- Apply one of the `cast` class attributes to a token. -/
def castFn : CastTy → String → Except ParseErr Elem
  | .intC, s =>
      match pyInt s with
      | some i => .ok (.numE (i : Rat))
      | none => .error (.badToken s)
  | .floatC, s =>
      match pyFloat s with
      | some q => .ok (.numE q)
      | none => .error (.badToken s)
  | .strC, s => .ok (.strE s)
  | .pathC, s => .ok (.pathE s)

/-- Call the raw element type on a token, as the Len container rule's
`cast=elem_type` does.  Python quirks are kept: `bool(token)` is string
truthiness, `bytes(token)` raises (no encoding), calling a container class
on a string makes a list of its characters, and `Ellipsis` is not callable. -/
def castElem : ElemTy → String → Except ParseErr Elem
  | .scalarE .intT, s =>
      match pyInt s with
      | some i => .ok (.numE (i : Rat))
      | none => .error (.badToken s)
  | .scalarE .floatT, s =>
      match pyFloat s with
      | some q => .ok (.numE q)
      | none => .error (.badToken s)
  | .scalarE .strT, s => .ok (.strE s)
  | .scalarE .boolT, s => .ok (.boolE (s ≠ ""))
  | .scalarE .bytesT, s => .error (.castCrash s)
  | .scalarE .pathT, s => .ok (.pathE s)
  | .rawContainerE _, s => .ok (.charsE s)
  | .subscriptedE _ _, s => .ok (.charsE s)
  | .ellipsisE, s => .error (.castCrash s)
  | .otherE id, s => .ok (.opaqueE id s)

def elemToVal : Elem → PyVal
  | .numE q => .numV q
  | .strE s => .strV s
  | .boolE b => .boolV b
  | .bytesE s => .bytesV s
  | .pathE s => .pathV s
  | .charsE s => .strListV (s.data.map Char.toString)
  | .opaqueE id s => .opaqueV id s

/-- Lower-bound check of `IntervalHandler`'s validators, in source order:
an inclusive bound rejects `v < lower`, an exclusive one rejects
`v <= lower`. -/
def checkLower (lower : Option Rat) (inc : Bool) (v : Rat) : Except ParseErr Unit :=
  match lower with
  | none => .ok ()
  | some l =>
      if inc then (if v < l then .error (.notGe l) else .ok ())
      else (if v ≤ l then .error (.notGt l) else .ok ())

/-- Upper-bound check of `IntervalHandler`'s validators. -/
def checkUpper (upper : Option Rat) (inc : Bool) (v : Rat) : Except ParseErr Unit :=
  match upper with
  | none => .ok ()
  | some u =>
      if inc then (if u < v then .error (.notLe u) else .ok ())
      else (if u ≤ v then .error (.notLt u) else .ok ())

/-- Maximum-length step of the string length validator: comparing against a
`max_length` attribute that holds Python `None` raises `TypeError`. -/
def lenStrMax (name : String) (maxA : Option (Option Nat)) (s : String) :
    Except ParseErr PyVal :=
  match maxA with
  | some (some m) => if s.length > m then .error (.maxChars name m) else .ok (.strV s)
  | some none => .error .noneComparison
  | none => .ok (.strV s)

/-- Minimum-length step of the string length validator. -/
def lenStrTail (name : String) (minA : Option Nat) (maxA : Option (Option Nat)) (s : String) :
    Except ParseErr PyVal :=
  match minA with
  | some m => if s.length < m then .error (.minChars name m) else lenStrMax name maxA s
  | none => lenStrMax name maxA s

/-- Interpretation of a scalar rule on one token. -/
def runScalar : ScalarParse → String → Except ParseErr PyVal
  | .castOnly c, s => (castFn c s).map elemToVal
  | .boolParse, s => (str_to_bool s).map PyVal.boolV
  | .bytesParse, s => .ok (.bytesV s)
  | .ineqScalar name ty op t, s =>
      match castNum ty s with
      | none => .error (.badToken s)
      | some v => if opHolds op v t then .ok (.numV v) else .error (.notOp name op t v)
  | .intervalScalar ty lower lowerInc upper upperInc, s =>
      match castNum ty s with
      | none => .error (.badToken s)
      | some v => do
          checkLower lower lowerInc v
          checkUpper upper upperInc v
          pure (.numV v)
  | .lenStr name lengthA minA maxA, s =>
      match lengthA with
      | some n => if s.length ≠ n then .error (.exactChars name n) else lenStrTail name minA maxA s
      | none => lenStrTail name minA maxA s

/-- Element loop of the inequality `validate_container`: the values were
already cast by argparse's per-token `type` (so the re-cast inside the loop
is the identity); the first violating element raises. -/
def ineqCheckElems (name : String) (op : IneqOp) (t : Rat) : List Rat → Except ParseErr Unit
  | [] => .ok ()
  | v :: rest =>
      if opHolds op v t then ineqCheckElems name op t rest
      else .error (.elementNotOp name op t v)

/-- Per-element bound checks of the interval `validate_container`, with the
container error messages. -/
def intervalCheckElem (name : String) (lower : Option Rat) (lowerInc : Bool)
    (upper : Option Rat) (upperInc : Bool) (v : Rat) : Except ParseErr Unit := do
  match lower with
  | none => pure ()
  | some l =>
      if lowerInc then (if v < l then throw (.elementNotGe name l) else pure ())
      else (if v ≤ l then throw (.elementNotGt name l) else pure ())
  match upper with
  | none => pure ()
  | some u =>
      if upperInc then (if u < v then throw (.elementNotLe name u) else pure ())
      else (if u ≤ v then throw (.elementNotLt name u) else pure ())

def intervalCheckElems (name : String) (lower : Option Rat) (lowerInc : Bool)
    (upper : Option Rat) (upperInc : Bool) : List Rat → Except ParseErr Unit
  | [] => .ok ()
  | v :: rest => do
      intervalCheckElem name lower lowerInc upper upperInc v
      intervalCheckElems name lower lowerInc upper upperInc rest

/-- Cast every token at a numeric element type, as argparse's per-token
`type` conversion does for the inequality and interval container rules. -/
def castTokens (ty : NumTy) : List String → Except ParseErr (List Rat)
  | [] => .ok []
  | s :: rest =>
      match castNum ty s with
      | none => .error (.badToken s)
      | some v => (castTokens ty rest).map (fun vs => v :: vs)

/-- Element casting and wrapping step of the Len container action, run after
both count checks on the raw token list succeed. -/
def lenContCast (k : ContainerKind) (elem : ElemTy) (tokens : List String) :
    Except ParseErr PyVal := do
  let casted ← tokens.mapM (castElem elem)
  pure (.contV k casted)

/-- Maximum-count step of the Len container action. -/
def lenContTail (k : ContainerKind) (elem : ElemTy) (maxA : Option Nat) (tokens : List String) :
    Except ParseErr PyVal :=
  match maxA with
  | some m => if tokens.length > m then .error (.tooMany m tokens.length) else lenContCast k elem tokens
  | none => lenContCast k elem tokens

/-- Interpretation of a container rule on the token list of one occurrence
of the flag.  `castContainer` is `ContainerCastAction.__call__`
(src/anci/_action.py:87-90); the constrained rules follow
`ConstrainedContainerAction.__call__` (src/anci/_action.py:154-169): length
checks on the raw token list first, then the element casts, then the
validator, and finally the container wrap. -/
def runContainer (k : ContainerKind) : ContainerParse → List String → Except ParseErr PyVal
  | .castContainer c, tokens => do
      let casted ← tokens.mapM (castFn c)
      pure (.contV k casted)
  | .ineqContainer name ty op t, tokens => do
      let vals ← castTokens ty tokens
      ineqCheckElems name op t vals
      pure (.contV k (vals.map Elem.numE))
  | .intervalContainer name ty lower lowerInc upper upperInc, tokens => do
      let vals ← castTokens ty tokens
      intervalCheckElems name lower lowerInc upper upperInc vals
      pure (.contV k (vals.map Elem.numE))
  | .lenContainer elem minA maxA, tokens =>
      match minA with
      | some m =>
          if tokens.length < m then .error (.tooFew m tokens.length)
          else lenContTail k elem maxA tokens
      | none => lenContTail k elem maxA tokens

/-! ## Helper lemmas about the command tree -/

theorem alookup_aset_self (s : String) (v : Node) :
    ∀ l : List (String × Node), alookup (aset s v l) s = some v := by
  intro l
  induction l with
  | nil => simp [aset, alookup]
  | cons kv rest ih =>
      by_cases h : kv.1 = s
      · simp [aset, alookup, h]
      · cases kv with
        | mk k w =>
            simp only at h
            simp [aset, alookup, h, ih]

theorem walk_storePath (upd : Node → Node) :
    ∀ (names : List String) (t : Node),
      walk (storePath upd names t) names = some (upd (fetch t names)) := by
  intro names
  induction names with
  | nil => intro t; rfl
  | cons s rest ih =>
      intro t
      simp only [storePath, walk, Node.subs, fetch, alookup_aset_self, Option.getD_some]
      exact ih _

theorem markLeaf_func (f : Nat) (nm : String) (n : Node) :
    (markLeaf f nm n).func = some f ∧ (markLeaf f nm n).name = some nm := by
  cases n; simp [markLeaf, Node.func, Node.name]

theorem markBase_fields (f : Nat) (nm : String) (n : Node) :
    (markBase f nm n).baseFunc = some f ∧ (markBase f nm n).name = some nm ∧
      (markBase f nm n).isBase = true := by
  cases n; simp [markBase, Node.baseFunc, Node.name, Node.isBase]

theorem checkPrefix_ok_of_registered (t : Node) (p : List String)
    (h : registeredBaseOrLeaf t p) : checkPrefix t p = .ok () := by
  obtain ⟨n, hw, hn⟩ := h
  by_cases hp : p = []
  · simp [checkPrefix, hp]
  · simp only [checkPrefix, if_neg hp, hw]
    have : ¬(n.baseFunc = none ∧ n.func = none) := by
      rcases hn with h1 | h1 <;> intro hc <;> [exact h1 hc.1; exact h1 hc.2]
    simp [this]

theorem checkPrefix_error_of_unregistered (t : Node) (p : List String)
    (hp : p ≠ []) (h : ¬ registeredBaseOrLeaf t p) : checkPrefix t p = .error p := by
  simp only [checkPrefix, if_neg hp]
  match hw : walk t p with
  | none => rfl
  | some n =>
      have hb : n.baseFunc = none ∧ n.func = none := by
        by_contra hc
        rw [Decidable.not_and_iff_or_not] at hc
        apply h
        refine ⟨n, hw, ?_⟩
        rcases hc with h1 | h1
        · exact Or.inl h1
        · exact Or.inr h1
      simp [hb]

theorem validateFrom_ok_of_all (t : Node) (names : List String) :
    ∀ (d i : Nat), names.length - i ≤ d →
      (∀ j, i ≤ j → j < names.length → checkPrefix t (names.take j) = .ok ()) →
      validateFrom t names i = .ok () := by
  intro d
  induction d with
  | zero =>
      intro i hd _
      have : ¬ i < names.length := by omega
      unfold validateFrom
      simp [this]
  | succ d ih =>
      intro i hd hall
      unfold validateFrom
      by_cases hi : i < names.length
      · rw [if_pos hi, hall i (Nat.le_refl i) hi]
        exact ih (i + 1) (by omega) (fun j hj hj2 => hall j (by omega) hj2)
      · simp [hi]

theorem validateFrom_error_at (t : Node) (names : List String) (i0 : Nat)
    (hlt : i0 < names.length)
    (herr : checkPrefix t (names.take i0) = .error (names.take i0)) :
    ∀ (d i : Nat), i0 - i ≤ d → i ≤ i0 →
      (∀ j, i ≤ j → j < i0 → checkPrefix t (names.take j) = .ok ()) →
      validateFrom t names i = .error (names.take i0) := by
  intro d
  induction d with
  | zero =>
      intro i hd hle _
      have : i = i0 := by omega
      subst this
      unfold validateFrom
      rw [if_pos hlt, herr]
  | succ d ih =>
      intro i hd hle hall
      by_cases heq : i = i0
      · subst heq
        unfold validateFrom
        rw [if_pos hlt, herr]
      · have hi : i < names.length := by omega
        unfold validateFrom
        rw [if_pos hi, hall i (Nat.le_refl i) (by omega)]
        exact ih (i + 1) (by omega) (by omega) (fun j hj hj2 => hall j (by omega) hj2)

theorem checkPrefix_nil (t : Node) : checkPrefix t [] = .ok () := by
  simp [checkPrefix]

/-! ## Claim theorems: command tree registration -/

/-- C1: registering a leaf command at a non-empty path `p` fails with a
`MissingBaseCommandError` naming the first (shortest) offending proper
non-empty prefix whenever some such prefix holds no node registered as a
Base or Leaf command — and then no leaf is stored at `p`, since the
exception propagates before the tree is written (the `Except.error` result
carries no tree).  When every proper non-empty prefix is registered as Base
or Leaf, the node at `p` is created or overwritten as a leaf holding the
handler.  An empty path registers a top-level leaf with no ancestor check
(the validation loop inspects no prefix). -/
theorem C1_register_leaf_parent_validation :
    (∀ (t : Node) (f : Nat) (nm : String),
        register_command [] f nm t = .ok (markLeaf f nm t)) ∧
    (∀ (t : Node) (names : List String) (f : Nat) (nm : String) (i0 : Nat),
        0 < i0 → i0 < names.length →
        (∀ j, j < i0 → 0 < j → registeredBaseOrLeaf t (names.take j)) →
        ¬ registeredBaseOrLeaf t (names.take i0) →
        register_command names f nm t = .error (names.take i0)) ∧
    (∀ (t : Node) (names : List String) (f : Nat) (nm : String),
        (∀ j, j < names.length → 0 < j → registeredBaseOrLeaf t (names.take j)) →
        ∃ t' n, register_command names f nm t = .ok t' ∧
          walk t' names = some n ∧ n.func = some f ∧ n.name = some nm) := by
  refine ⟨?_, ?_, ?_⟩
  · intro t f nm
    have hval : validateFrom t [] 0 = .ok () := by
      unfold validateFrom; simp
    simp [register_command, validate_parent_commands, hval, storePath]
  · intro t names f nm i0 h0 hlen hreg hnreg
    have hp : names.take i0 ≠ [] := by
      intro hc
      rcases List.take_eq_nil_iff.mp hc with h | h
      · omega
      · subst h; simp at hlen
    have herr := checkPrefix_error_of_unregistered t _ hp hnreg
    have hval : validateFrom t names 0 = .error (names.take i0) := by
      refine validateFrom_error_at t names i0 hlen herr i0 0 (by omega) (by omega) ?_
      intro j hj0 hji
      by_cases hz : j = 0
      · subst hz; simpa using checkPrefix_nil t
      · exact checkPrefix_ok_of_registered t _ (hreg j hji (by omega))
    simp [register_command, validate_parent_commands, hval]
  · intro t names f nm hreg
    have hval : validateFrom t names 0 = .ok () := by
      refine validateFrom_ok_of_all t names names.length 0 (by omega) ?_
      intro j _ hj
      by_cases hz : j = 0
      · subst hz; simpa using checkPrefix_nil t
      · exact checkPrefix_ok_of_registered t _ (hreg j hj (by omega))
    refine ⟨storePath (markLeaf f nm) names t, markLeaf f nm (fetch t names), ?_,
      walk_storePath (markLeaf f nm) names t,
      (markLeaf_func f nm (fetch t names)).1, (markLeaf_func f nm (fetch t names)).2⟩
    simp [register_command, validate_parent_commands, hval]

/-- Witness for C1 at concrete inputs: with only a base at path `[a]`
registered, a leaf at `[a, b, c]` fails naming the shortest offending
prefix `[a, b]`, while a leaf at `[a, b]` is stored successfully. -/
theorem C1_register_leaf_parent_validation_witness :
    register_command ["a", "b", "c"] 7 "f" (register_base_command ["a"] 1 "g" emptyNode) =
      .error ["a", "b"] ∧
    (∃ t' n, register_command ["a", "b"] 7 "f" (register_base_command ["a"] 1 "g" emptyNode) =
        .ok t' ∧ walk t' ["a", "b"] = some n ∧ n.func = some 7 ∧ n.name = some "f") := by
  constructor
  · exact C1_register_leaf_parent_validation.2.1
      (register_base_command ["a"] 1 "g" emptyNode) ["a", "b", "c"] 7 "f" 2
      (by decide) (by decide) (by decide) (by decide)
  · exact C1_register_leaf_parent_validation.2.2
      (register_base_command ["a"] 1 "g" emptyNode) ["a", "b"] 7 "f" (by decide)

/-- C9: registering a base command at any path always succeeds — the
operation is total, performing no validation of any ancestor node — and
creates or overwrites the node at that path, marking it as Base
(`_is_base = True`) and storing the handler and its name.  Only
`register_command` (leaf registration) calls `validate_parent_commands`. -/
theorem C9_register_base_always_succeeds (t : Node) (names : List String) (f : Nat)
    (nm : String) :
    ∃ n, walk (register_base_command names f nm t) names = some n ∧
      n.baseFunc = some f ∧ n.name = some nm ∧ n.isBase = true := by
  refine ⟨markBase f nm (fetch t names), walk_storePath (markBase f nm) names t, ?_⟩
  obtain ⟨h1, h2, h3⟩ := markBase_fields f nm (fetch t names)
  exact ⟨h1, h2, h3⟩

/-! ## Claim theorems: dispatch -/

/-- C2: when no command was selected, `runner` prints top-level help and
exits with status 0; when a command was selected but no selected function
resolves, it prints help and exits with status 1; otherwise (not on the
base-flagged path, which calls the base handler with no arguments) it calls
the handler with exactly the parsed-value mapping minus the bookkeeping
fields — the selected-function reference `func`, the command-selection and
path fields `command` and `command_path`, the base flag `is_base`, and every
nested-subcommand discriminator field `subcmd_…` — as keyword arguments. -/
theorem C2_runner_dispatch :
    (∀ env a, commandSelected a = false → (runner env a).1 = .helpExit 0) ∧
    (∀ env a, commandSelected a = true → funcResolved a = false →
        (runner env a).1 = .helpExit 1) ∧
    (∀ env a, commandSelected a = true → funcResolved a = true → baseFlagged a = false →
        (runner env a).1 = .leafCall (find_selected_function a)
            (a.filter (fun kv => !(isBookkeepingKey kv.1))) ∧
          ∀ (k : String) (v : PyVal),
            (k, v) ∈ a.filter (fun kv => !(isBookkeepingKey kv.1)) ↔
              ((k, v) ∈ a ∧ isBookkeepingKey k = false)) := by
  refine ⟨?_, ?_, ?_⟩
  · intro env a h
    cases hc : alookupV a "command" with
    | none => simp [runner, hc]
    | some v =>
        cases v <;> simp [commandSelected, hc] at h
        all_goals simp [runner, hc]
  · intro env a hc hf
    have hf' : find_selected_function a = PyVal.noneV := by
      by_contra hne
      simp [funcResolved, hne] at hf
    cases hcmd : alookupV a "command" with
    | none => simp [commandSelected, hcmd] at hc
    | some v =>
        cases v <;> simp [commandSelected, hcmd] at hc <;> simp [runner, hcmd, hf']
  · intro env a hc hf hb
    constructor
    · cases hcmd : alookupV a "command" with
      | none => simp [commandSelected, hcmd] at hc
      | some v =>
          have hbl : alookupV a "is_base" = none ∨
              ∃ b, alookupV a "is_base" = some b ∧ truthy b = false := by
            cases hib : alookupV a "is_base" with
            | none => exact Or.inl rfl
            | some b =>
                refine Or.inr ⟨b, rfl, ?_⟩
                simpa [baseFlagged, hib] using hb
          cases hfv : find_selected_function a
          case noneV => simp [funcResolved, hfv] at hf
          all_goals
            cases v <;> simp [commandSelected, hcmd] at hc <;>
              (simp only [runner, hcmd, hfv]
               rcases hbl with hib | ⟨b, hib, htr⟩
               · simp only [hib]; rfl
               · simp only [hib, htr]
                 simp [runnerLeaf])
    · intro k v
      simp [List.mem_filter]

/-- Witness for C2 at concrete namespaces: one with no command selected,
one selected but unresolved, and one fully resolved leaf invocation whose
handler receives exactly the non-bookkeeping entries. -/
theorem C2_runner_dispatch_witness :
    (runner (fun _ _ => PyVal.noneV) [("x", PyVal.numV 3)]).1 = .helpExit 0 ∧
    (runner (fun _ _ => PyVal.noneV) [("command", PyVal.strV "add")]).1 = .helpExit 1 ∧
    (runner (fun _ _ => PyVal.noneV)
        [("command", PyVal.strV "add"), ("func", PyVal.funcV 4),
         ("command_path", PyVal.strListV ["math", "add"]), ("is_base", PyVal.boolV false),
         ("subcmd_math", PyVal.noneV), ("x", PyVal.numV 3)]).1 =
      .leafCall (PyVal.funcV 4) [("x", PyVal.numV 3)] := by
  refine ⟨?_, ?_, ?_⟩
  · exact C2_runner_dispatch.1 (fun _ _ => PyVal.noneV) [("x", PyVal.numV 3)] (by decide)
  · exact C2_runner_dispatch.2.1 (fun _ _ => PyVal.noneV) [("command", PyVal.strV "add")]
      (by decide) (by decide)
  · have h := (C2_runner_dispatch.2.2 (fun _ _ => PyVal.noneV)
      [("command", PyVal.strV "add"), ("func", PyVal.funcV 4),
       ("command_path", PyVal.strListV ["math", "add"]), ("is_base", PyVal.boolV false),
       ("subcmd_math", PyVal.noneV), ("x", PyVal.numV 3)]
      (by decide) (by decide) (by decide)).1
    rw [h]
    decide

/-- C10 (implicit): the dispatcher discards the executed handler's result.
On every dispatched leaf command `runner` calls the handler (the
environment `env` supplies its return value) yet returns Python `None`, and
`main`, whose last statement is the bare `runner(...)` call, therefore also
returns `None` — whatever `env` makes the handler return. -/
theorem runner_second_component (env : PyVal → List (String × PyVal) → PyVal)
    (a : List (String × PyVal)) :
    (runner env a).2 = some PyVal.noneV ∨
      ((runner env a).1 = .helpExit 0 ∧ (runner env a).2 = none) ∨
      ((runner env a).1 = .helpExit 1 ∧ (runner env a).2 = none) := by
  unfold runner
  split
  · exact Or.inr (Or.inl ⟨rfl, rfl⟩)
  · exact Or.inr (Or.inl ⟨rfl, rfl⟩)
  · split
    · exact Or.inr (Or.inr ⟨rfl, rfl⟩)
    · split
      · split
        · exact Or.inl rfl
        · exact Or.inl rfl
      · exact Or.inl rfl

theorem C10_dispatch_discards_result (env : PyVal → List (String × PyVal) → PyVal)
    (a : List (String × PyVal)) (f : PyVal) (kw : List (String × PyVal))
    (h : (runner env a).1 = .leafCall f kw) :
    (runner env a).2 = some .noneV ∧ mainReturn env a = some .noneV := by
  have h2 : (runner env a).2 = some PyVal.noneV := by
    rcases runner_second_component env a with h2 | ⟨h1, _⟩ | ⟨h1, _⟩
    · exact h2
    · rw [h1] at h; exact absurd h (by simp)
    · rw [h1] at h; exact absurd h (by simp)
  exact ⟨h2, by unfold mainReturn; rw [h2]; rfl⟩

/-! ## Claim theorems: handlers -/

/-- C7: the boolean parsing rule maps any token whose lowercase form is one
of true/t/yes/1 to `True`, any token whose lowercase form is one of
false/f/no/0 to `False`, and fails on every other token with
`argparse.ArgumentTypeError` naming the offending token (which argparse
surfaces as a parse error). -/
theorem C7_bool_vocabulary (v : String) :
    (pyLower v ∈ (["true", "t", "yes", "1"] : List String) → str_to_bool v = .ok true) ∧
    (pyLower v ∈ (["false", "f", "no", "0"] : List String) → str_to_bool v = .ok false) ∧
    (pyLower v ∉ (["true", "t", "yes", "1"] : List String) →
      pyLower v ∉ (["false", "f", "no", "0"] : List String) →
      str_to_bool v = .error (.invalidBoolean v)) := by
  refine ⟨?_, ?_, ?_⟩
  · intro h
    simp only [List.mem_cons, List.not_mem_nil, or_false] at h
    rcases h with h | h | h | h <;> simp [str_to_bool, h]
  · intro h
    simp only [List.mem_cons, List.not_mem_nil, or_false] at h
    rcases h with h | h | h | h <;> simp [str_to_bool, h]
  · intro h1 h2
    simp only [List.mem_cons, List.not_mem_nil, or_false, not_or] at h1 h2
    obtain ⟨a1, a2, a3, a4⟩ := h1
    obtain ⟨b1, b2, b3, b4⟩ := h2
    simp [str_to_bool, a1, a2, a3, a4, b1, b2, b3, b4]

/-- Witness for C7: mixed-case truthy token, falsy digit token, and an
out-of-vocabulary token. -/
theorem C7_bool_vocabulary_witness :
    str_to_bool "YeS" = .ok true ∧ str_to_bool "0" = .ok false ∧
      str_to_bool "nope" = .error (.invalidBoolean "nope") :=
  ⟨(C7_bool_vocabulary "YeS").1 (by decide),
   (C7_bool_vocabulary "0").2.1 (by decide),
   (C7_bool_vocabulary "nope").2.2 (by decide) (by decide)⟩

theorem except_bind_ok {e a b : Type} (x : a) (f : a → Except e b) :
    (Except.ok x : Except e a) >>= f = f x := rfl

theorem except_bind_error {e a b : Type} (err : e) (f : a → Except e b) :
    (Except.error err : Except e a) >>= f = Except.error err := rfl

theorem except_pure {e a : Type} (x : a) : (pure x : Except e a) = Except.ok x := rfl

theorem except_throw {e a : Type} (err : e) : (throw err : Except e a) = Except.error err := rfl

theorem ineqCheckElems_ok_of_all (name : String) (op : IneqOp) (t : Rat) :
    ∀ vals : List Rat, (∀ v ∈ vals, opHolds op v t = true) →
      ineqCheckElems name op t vals = .ok () := by
  intro vals
  induction vals with
  | nil => intro _; rfl
  | cons v rest ih =>
      intro h
      have hv : opHolds op v t = true := h v (List.mem_cons_self v rest)
      simp only [ineqCheckElems, hv, if_pos]
      exact ih (fun w hw => h w (List.mem_cons_of_mem v hw))

theorem ineqCheckElems_error_of_exists (name : String) (op : IneqOp) (t : Rat) :
    ∀ vals : List Rat, (∃ v ∈ vals, opHolds op v t = false) →
      ∃ e, ineqCheckElems name op t vals = .error e := by
  intro vals
  induction vals with
  | nil => rintro ⟨v, hv, _⟩; simp at hv
  | cons v rest ih =>
      rintro ⟨w, hw, hwf⟩
      by_cases hv : opHolds op v t = true
      · have hwr : w ∈ rest := by
          rcases List.mem_cons.mp hw with rfl | h
          · rw [hv] at hwf; cases hwf
          · exact h
        obtain ⟨e, he⟩ := ih ⟨w, hwr, hwf⟩
        exact ⟨e, by simp only [ineqCheckElems, hv, if_pos]; exact he⟩
      · exact ⟨.elementNotOp name op t v, by
          simp only [Bool.not_eq_true] at hv
          simp [ineqCheckElems, hv]⟩

/-- C4: the inequality constraints Gt/Ge/Lt/Le accept exactly the numeric
base types int and float, scalar or container thereof (the code reads the
first declared element-type argument), and reject every other target at
build time with the invalid-target `TypeError`; scalar tokens are cast and
compared with the matching `operator` function, so Gt(10) accepts 11
(yielding 11) and rejects 10, and symmetrically for Ge/Lt/Le at their
boundaries; containers apply the same check to every element, and a single
violating element rejects the whole argument. -/
theorem C4_inequality_constraints :
    (∀ (name : String) (op : IneqOp) (t : Rat),
        inequalityBuild name (.scalar .intT) op t =
          .ok (.scalarRule (.ineqScalar name .intN op t)) ∧
        inequalityBuild name (.scalar .floatT) op t =
          .ok (.scalarRule (.ineqScalar name .floatN op t))) ∧
    (∀ (name : String) (op : IneqOp) (t : Rat) (k : ContainerKind) (args : List ElemTy),
        (args.head? = some (.scalarE .intT) →
          inequalityBuild name (.container k args) op t =
            .ok (.containerRule k (.ineqContainer name .intN op t))) ∧
        (args.head? = some (.scalarE .floatT) →
          inequalityBuild name (.container k args) op t =
            .ok (.containerRule k (.ineqContainer name .floatN op t)))) ∧
    (∀ (name : String) (op : IneqOp) (t : Rat) (b : BaseTy),
        b ≠ .scalar .intT → b ≠ .scalar .floatT →
        (∀ k args, b = .container k args →
          args.head? ≠ none ∧ args.head? ≠ some (.scalarE .intT) ∧
            args.head? ≠ some (.scalarE .floatT)) →
        inequalityBuild name b op t = .error (.invalidConstraintTarget name)) ∧
    (∀ (name : String) (ty : NumTy) (op : IneqOp) (t : Rat) (s : String) (v : Rat),
        castNum ty s = some v →
        (opHolds op v t = true → runScalar (.ineqScalar name ty op t) s = .ok (.numV v)) ∧
        (opHolds op v t = false →
          runScalar (.ineqScalar name ty op t) s = .error (.notOp name op t v))) ∧
    (∀ (name : String) (ty : NumTy) (op : IneqOp) (t : Rat) (k : ContainerKind)
        (tokens : List String) (vals : List Rat),
        castTokens ty tokens = .ok vals →
        ((∀ v ∈ vals, opHolds op v t = true) →
          runContainer k (.ineqContainer name ty op t) tokens =
            .ok (.contV k (vals.map Elem.numE))) ∧
        ((∃ v ∈ vals, opHolds op v t = false) →
          ∀ out, runContainer k (.ineqContainer name ty op t) tokens ≠ .ok out)) := by
  refine ⟨?_, ?_, ?_, ?_, ?_⟩
  · intro name op t; exact ⟨rfl, rfl⟩
  · intro name op t k args
    constructor <;> intro h <;> simp [inequalityBuild, h]
  · intro name op t b h1 h2 h3
    cases b with
    | scalar s => cases s <;> first | (exact absurd rfl h1) | (exact absurd rfl h2) | rfl
    | rawContainer k => rfl
    | container k args =>
        obtain ⟨hn, hi, hf⟩ := h3 k args rfl
        cases hh : args.head? with
        | none => exact absurd hh hn
        | some e =>
            cases e with
            | scalarE s =>
                cases s <;> first
                  | (exact absurd hh hi)
                  | (exact absurd hh hf)
                  | simp [inequalityBuild, hh]
            | rawContainerE k2 => simp [inequalityBuild, hh]
            | subscriptedE k2 id => simp [inequalityBuild, hh]
            | ellipsisE => simp [inequalityBuild, hh]
            | otherE id => simp [inequalityBuild, hh]
    | otherB id => rfl
  · intro name ty op t s v hcast
    constructor <;> intro hop <;> simp [runScalar, hcast, hop]
  · intro name ty op t k tokens vals hcast
    constructor
    · intro hall
      simp [runContainer, hcast, except_bind_ok,
        ineqCheckElems_ok_of_all name op t vals hall]
    · intro hex out
      obtain ⟨e, he⟩ := ineqCheckElems_error_of_exists name op t vals hex
      simp [runContainer, hcast, except_bind_ok, he]

/-- Witness for C4 at the claim's boundary values (int base type), plus the
container acceptance/rejection and the build-time success and failure. -/
theorem C4_inequality_constraints_witness :
    runScalar (.ineqScalar "x" .intN .gtO 10) "11" = .ok (.numV 11) ∧
    runScalar (.ineqScalar "x" .intN .gtO 10) "10" = .error (.notOp "x" .gtO 10 10) ∧
    runScalar (.ineqScalar "x" .intN .geO 10) "10" = .ok (.numV 10) ∧
    runScalar (.ineqScalar "x" .intN .geO 10) "9" = .error (.notOp "x" .geO 10 9) ∧
    runScalar (.ineqScalar "x" .intN .ltO 10) "9" = .ok (.numV 9) ∧
    runScalar (.ineqScalar "x" .intN .ltO 10) "10" = .error (.notOp "x" .ltO 10 10) ∧
    runScalar (.ineqScalar "x" .intN .leO 10) "10" = .ok (.numV 10) ∧
    runScalar (.ineqScalar "x" .intN .leO 10) "11" = .error (.notOp "x" .leO 10 11) ∧
    runContainer .listK (.ineqContainer "x" .intN .gtO 10) ["11", "12"] =
      .ok (.contV .listK [.numE 11, .numE 12]) ∧
    (∀ out, runContainer .listK (.ineqContainer "x" .intN .gtO 10) ["10", "11"] ≠ .ok out) ∧
    inequalityBuild "x" (.scalar .intT) .gtO 10 =
      .ok (.scalarRule (.ineqScalar "x" .intN .gtO 10)) ∧
    inequalityBuild "x" (.scalar .strT) .gtO 10 = .error (.invalidConstraintTarget "x") := by
  refine ⟨?_, ?_, ?_, ?_, ?_, ?_, ?_, ?_, ?_, ?_, ?_, ?_⟩
  · exact (C4_inequality_constraints.2.2.2.1 "x" .intN .gtO 10 "11" 11 (by decide)).1 (by decide)
  · exact (C4_inequality_constraints.2.2.2.1 "x" .intN .gtO 10 "10" 10 (by decide)).2 (by decide)
  · exact (C4_inequality_constraints.2.2.2.1 "x" .intN .geO 10 "10" 10 (by decide)).1 (by decide)
  · exact (C4_inequality_constraints.2.2.2.1 "x" .intN .geO 10 "9" 9 (by decide)).2 (by decide)
  · exact (C4_inequality_constraints.2.2.2.1 "x" .intN .ltO 10 "9" 9 (by decide)).1 (by decide)
  · exact (C4_inequality_constraints.2.2.2.1 "x" .intN .ltO 10 "10" 10 (by decide)).2 (by decide)
  · exact (C4_inequality_constraints.2.2.2.1 "x" .intN .leO 10 "10" 10 (by decide)).1 (by decide)
  · exact (C4_inequality_constraints.2.2.2.1 "x" .intN .leO 10 "11" 11 (by decide)).2 (by decide)
  · exact (C4_inequality_constraints.2.2.2.2 "x" .intN .gtO 10 .listK ["11", "12"] [11, 12]
      (by decide)).1 (by decide)
  · exact (C4_inequality_constraints.2.2.2.2 "x" .intN .gtO 10 .listK ["10", "11"] [10, 11]
      (by decide)).2 (by decide)
  · exact (C4_inequality_constraints.1 "x" .gtO 10).1
  · exact C4_inequality_constraints.2.2.1 "x" .gtO 10 (.scalar .strT) (by decide) (by decide)
      (by intro k args h; cases h)

theorem intervalCheckElem_ok_incl (name : String) (l u v : Rat) (h1 : l ≤ v) (h2 : v ≤ u) :
    intervalCheckElem name (some l) true (some u) true v = .ok () := by
  simp [intervalCheckElem, not_lt.mpr h1, not_lt.mpr h2, except_pure, except_bind_ok]

theorem intervalCheckElem_err_incl (name : String) (l u v : Rat) (h : v < l ∨ u < v) :
    ∃ e, intervalCheckElem name (some l) true (some u) true v = .error e := by
  by_cases hl : v < l
  · exact ⟨.elementNotGe name l, by
      simp [intervalCheckElem, hl, except_throw, except_bind_error]⟩
  · rcases h with h | h
    · exact absurd h hl
    · exact ⟨.elementNotLe name u, by
        simp [intervalCheckElem, hl, h, except_pure, except_bind_ok, except_throw]⟩

theorem intervalCheckElems_ok_incl (name : String) (l u : Rat) :
    ∀ vals : List Rat, (∀ v ∈ vals, l ≤ v ∧ v ≤ u) →
      intervalCheckElems name (some l) true (some u) true vals = .ok () := by
  intro vals
  induction vals with
  | nil => intro _; rfl
  | cons v rest ih =>
      intro h
      obtain ⟨h1, h2⟩ := h v (List.mem_cons_self v rest)
      simp only [intervalCheckElems, intervalCheckElem_ok_incl name l u v h1 h2, except_bind_ok]
      exact ih (fun w hw => h w (List.mem_cons_of_mem v hw))

theorem intervalCheckElems_error_incl (name : String) (l u : Rat) :
    ∀ vals : List Rat, (∃ v ∈ vals, v < l ∨ u < v) →
      ∃ e, intervalCheckElems name (some l) true (some u) true vals = .error e := by
  intro vals
  induction vals with
  | nil => rintro ⟨v, hv, _⟩; simp at hv
  | cons v rest ih =>
      rintro ⟨w, hw, hwf⟩
      by_cases hv : v < l ∨ u < v
      · obtain ⟨e, he⟩ := intervalCheckElem_err_incl name l u v hv
        exact ⟨e, by simp [intervalCheckElems, he, except_bind_error]⟩
      · push_neg at hv
        have hok := intervalCheckElem_ok_incl name l u v hv.1 hv.2
        have hwr : w ∈ rest := by
          rcases List.mem_cons.mp hw with rfl | hmem
          · rcases hwf with hf | hf
            · exact absurd hf (not_lt.mpr hv.1)
            · exact absurd hf (not_lt.mpr hv.2)
          · exact hmem
        obtain ⟨e, he⟩ := ih ⟨w, hwr, hwf⟩
        exact ⟨e, by simp [intervalCheckElems, hok, except_bind_ok, he]⟩

/-- C5: the Interval constraint rejects specifying both `gt` and `ge`, or
both `lt` and `le`, with a `TypeError` at build time before any user input
is read; each bound is independently optional (the derived effective bounds
cover open-ended intervals); and the inclusive Interval(ge=10, le=20)
accepts 10 and 20 and rejects 9 and 21, for scalars and for every element
of a numeric container. -/
theorem C5_interval_constraint :
    (∀ (name : String) (b : BaseTy) (gt ge lt le : Option Rat),
        gt.isSome = true → ge.isSome = true →
        intervalBuild name b gt ge lt le = .error .intervalBothLower) ∧
    (∀ (name : String) (b : BaseTy) (gt ge lt le : Option Rat),
        (gt.isSome && ge.isSome) = false → lt.isSome = true → le.isSome = true →
        intervalBuild name b gt ge lt le = .error .intervalBothUpper) ∧
    (∀ (name : String) (gt ge lt le : Option Rat),
        (gt.isSome && ge.isSome) = false → (lt.isSome && le.isSome) = false →
        intervalBuild name (.scalar .intT) gt ge lt le =
          .ok (.scalarRule (.intervalScalar .intN (if gt.isSome then gt else ge)
            (ge.isSome || gt.isNone) (if lt.isSome then lt else le)
            (le.isSome || lt.isNone)))) ∧
    (∀ (ty : NumTy) (s : String) (v : Rat), castNum ty s = some v →
        (10 ≤ v → v ≤ 20 →
          runScalar (.intervalScalar ty (some 10) true (some 20) true) s = .ok (.numV v)) ∧
        (v < 10 →
          runScalar (.intervalScalar ty (some 10) true (some 20) true) s =
            .error (.notGe 10)) ∧
        (10 ≤ v → 20 < v →
          runScalar (.intervalScalar ty (some 10) true (some 20) true) s =
            .error (.notLe 20))) ∧
    (∀ (name : String) (ty : NumTy) (k : ContainerKind) (tokens : List String)
        (vals : List Rat), castTokens ty tokens = .ok vals →
        ((∀ v ∈ vals, 10 ≤ v ∧ v ≤ 20) →
          runContainer k (.intervalContainer name ty (some 10) true (some 20) true) tokens =
            .ok (.contV k (vals.map Elem.numE))) ∧
        ((∃ v ∈ vals, v < 10 ∨ 20 < v) →
          ∀ out,
            runContainer k (.intervalContainer name ty (some 10) true (some 20) true) tokens ≠
              .ok out)) := by
  refine ⟨?_, ?_, ?_, ?_, ?_⟩
  · intro name b gt ge lt le h1 h2
    simp [intervalBuild, h1, h2]
  · intro name b gt ge lt le h0 h1 h2
    simp [intervalBuild, h0, h1, h2]
  · intro name gt ge lt le h1 h2
    simp [intervalBuild, h1, h2]
  · intro ty s v hcast
    refine ⟨?_, ?_, ?_⟩
    · intro h1 h2
      simp [runScalar, hcast, checkLower, checkUpper, not_lt.mpr h1, not_lt.mpr h2,
        except_bind_ok]
    · intro h
      simp [runScalar, hcast, checkLower, h, except_bind_error]
    · intro h1 h2
      simp [runScalar, hcast, checkLower, checkUpper, not_lt.mpr h1, h2, except_bind_ok,
        except_bind_error]
  · intro name ty k tokens vals hcast
    constructor
    · intro hall
      simp [runContainer, hcast, except_bind_ok,
        intervalCheckElems_ok_incl name 10 20 vals hall]
    · intro hex out
      obtain ⟨e, he⟩ := intervalCheckElems_error_incl name 10 20 vals hex
      simp [runContainer, hcast, except_bind_ok, he]

/-- Witness for C5: the double-bound build errors, an open-ended build, and
Interval(ge=10, le=20) at the boundary and just-outside values, scalar and
container. -/
theorem C5_interval_constraint_witness :
    intervalBuild "x" (.scalar .intT) (some 1) (some 2) none none =
      .error .intervalBothLower ∧
    intervalBuild "x" (.scalar .intT) none none (some 1) (some 2) =
      .error .intervalBothUpper ∧
    intervalBuild "x" (.scalar .intT) none (some 10) none none =
      .ok (.scalarRule (.intervalScalar .intN (some 10) true none true)) ∧
    runScalar (.intervalScalar .intN (some 10) true (some 20) true) "10" = .ok (.numV 10) ∧
    runScalar (.intervalScalar .intN (some 10) true (some 20) true) "20" = .ok (.numV 20) ∧
    runScalar (.intervalScalar .intN (some 10) true (some 20) true) "9" =
      .error (.notGe 10) ∧
    runScalar (.intervalScalar .intN (some 10) true (some 20) true) "21" =
      .error (.notLe 20) ∧
    runContainer .listK (.intervalContainer "x" .intN (some 10) true (some 20) true)
      ["10", "20"] = .ok (.contV .listK [.numE 10, .numE 20]) ∧
    (∀ out, runContainer .listK (.intervalContainer "x" .intN (some 10) true (some 20) true)
      ["9", "15"] ≠ .ok out) ∧
    (∀ out, runContainer .listK (.intervalContainer "x" .intN (some 10) true (some 20) true)
      ["15", "21"] ≠ .ok out) := by
  refine ⟨?_, ?_, ?_, ?_, ?_, ?_, ?_, ?_, ?_, ?_⟩
  · exact C5_interval_constraint.1 "x" (.scalar .intT) (some 1) (some 2) none none
      (by decide) (by decide)
  · exact C5_interval_constraint.2.1 "x" (.scalar .intT) none none (some 1) (some 2)
      (by decide) (by decide) (by decide)
  · exact (C5_interval_constraint.2.2.1 "x" none (some 10) none none (by decide)
      (by decide)).trans (by decide)
  · exact (C5_interval_constraint.2.2.2.1 .intN "10" 10 (by decide)).1 (by decide) (by decide)
  · exact (C5_interval_constraint.2.2.2.1 .intN "20" 20 (by decide)).1 (by decide) (by decide)
  · exact (C5_interval_constraint.2.2.2.1 .intN "9" 9 (by decide)).2.1 (by decide)
  · exact (C5_interval_constraint.2.2.2.1 .intN "21" 21 (by decide)).2.2 (by decide) (by decide)
  · exact (C5_interval_constraint.2.2.2.2 "x" .intN .listK ["10", "20"] [10, 20]
      (by decide)).1 (by decide)
  · exact (C5_interval_constraint.2.2.2.2 "x" .intN .listK ["9", "15"] [9, 15]
      (by decide)).2 (by decide)
  · exact (C5_interval_constraint.2.2.2.2 "x" .intN .listK ["15", "21"] [15, 21]
      (by decide)).2 (by decide)

theorem lenContCast_ok (k : ContainerKind) (e : ElemTy) (tokens : List String)
    (casted : List Elem) (hc : tokens.mapM (castElem e) = .ok casted) :
    lenContCast k e tokens = .ok (.contV k casted) := by
  unfold lenContCast
  rw [hc]
  rfl

/-- C6: length constraints.  MaxLen(3) accepts length 3 and rejects
length 4, MinLen(3) accepts length 3 and rejects length 2, and the
exact-length Len (min_length = max_length = 3) accepts exactly length 3 —
identically for strings and for containers.  On containers the count checks
run inside the action on the raw token list, before any element cast (the
error conjuncts below hold for arbitrary, even uncastable, tokens).  A
length constraint on any target that is neither `str`, `bytes`, nor a
subscripted container fails at build time with the invalid-target
`TypeError`. -/
theorem C6_length_constraints :
    (∀ name : String,
        buildAnnotated name (.scalar .strT) (.maxLenM 3) =
          .ok (.scalarRule (.lenStr name none none (some (some 3)))) ∧
        buildAnnotated name (.scalar .strT) (.minLenM 3) =
          .ok (.scalarRule (.lenStr name none (some 3) none)) ∧
        buildAnnotated name (.scalar .strT) (.lenM 3 (some 3)) =
          .ok (.scalarRule (.lenStr name none (some 3) (some (some 3))))) ∧
    (∀ (name s : String),
        (s.length ≤ 3 →
          runScalar (.lenStr name none none (some (some 3))) s = .ok (.strV s)) ∧
        (3 < s.length →
          runScalar (.lenStr name none none (some (some 3))) s =
            .error (.maxChars name 3)) ∧
        (3 ≤ s.length → runScalar (.lenStr name none (some 3) none) s = .ok (.strV s)) ∧
        (s.length < 3 →
          runScalar (.lenStr name none (some 3) none) s = .error (.minChars name 3)) ∧
        (runScalar (.lenStr name none (some 3) (some (some 3))) s = .ok (.strV s) ↔
          s.length = 3)) ∧
    (∀ (name : String) (k : ContainerKind) (args : List ElemTy) (e : ElemTy),
        args.head? = some e →
        buildAnnotated name (.container k args) (.maxLenM 3) =
          .ok (.containerRule k (.lenContainer e none (some 3))) ∧
        buildAnnotated name (.container k args) (.minLenM 3) =
          .ok (.containerRule k (.lenContainer e (some 3) none)) ∧
        buildAnnotated name (.container k args) (.lenM 3 (some 3)) =
          .ok (.containerRule k (.lenContainer e (some 3) (some 3)))) ∧
    (∀ (k : ContainerKind) (e : ElemTy) (tokens : List String),
        (3 < tokens.length →
          runContainer k (.lenContainer e none (some 3)) tokens =
            .error (.tooMany 3 tokens.length)) ∧
        (tokens.length ≤ 3 → ∀ casted, tokens.mapM (castElem e) = .ok casted →
          runContainer k (.lenContainer e none (some 3)) tokens = .ok (.contV k casted)) ∧
        (tokens.length < 3 →
          runContainer k (.lenContainer e (some 3) none) tokens =
            .error (.tooFew 3 tokens.length)) ∧
        (3 ≤ tokens.length → ∀ casted, tokens.mapM (castElem e) = .ok casted →
          runContainer k (.lenContainer e (some 3) none) tokens = .ok (.contV k casted)) ∧
        (tokens.length = 3 → ∀ casted, tokens.mapM (castElem e) = .ok casted →
          runContainer k (.lenContainer e (some 3) (some 3)) tokens = .ok (.contV k casted)) ∧
        (tokens.length ≠ 3 → ∀ out,
          runContainer k (.lenContainer e (some 3) (some 3)) tokens ≠ .ok out)) ∧
    (∀ (name : String) (b : BaseTy) (lengthA minA : Option Nat) (maxA : Option (Option Nat)),
        (∀ k args, b ≠ .container k args) → b ≠ .scalar .strT → b ≠ .scalar .bytesT →
        lenBuild name b lengthA minA maxA = .error (.invalidConstraintTarget name)) := by
  refine ⟨?_, ?_, ?_, ?_, ?_⟩
  · intro name; exact ⟨rfl, rfl, rfl⟩
  · intro name s
    refine ⟨?_, ?_, ?_, ?_, ?_⟩
    · intro h; simp [runScalar, lenStrTail, lenStrMax, Nat.not_lt.mpr h]
    · intro h; simp [runScalar, lenStrTail, lenStrMax, h]
    · intro h; simp [runScalar, lenStrTail, lenStrMax, Nat.not_lt.mpr h]
    · intro h; simp [runScalar, lenStrTail, lenStrMax, h]
    · constructor
      · intro h
        by_contra hne
        have hc : s.length < 3 ∨ 3 < s.length := by omega
        rcases hc with hc | hc
        · simp [runScalar, lenStrTail, lenStrMax, hc] at h
        · simp [runScalar, lenStrTail, lenStrMax, hc, Nat.not_lt.mpr (Nat.le_of_lt hc)] at h
      · intro h3; simp [runScalar, lenStrTail, lenStrMax, h3]
  · intro name k args e he
    refine ⟨?_, ?_, ?_⟩ <;> simp [buildAnnotated, lenBuild, he, List.headD_eq_head?]
  · intro k e tokens
    refine ⟨?_, ?_, ?_, ?_, ?_, ?_⟩
    · intro h; simp [runContainer, lenContTail, lenContCast, h]
    · intro h casted hc
      simp [runContainer, lenContTail, Nat.not_lt.mpr h, lenContCast_ok k e tokens casted hc]
    · intro h; simp [runContainer, lenContTail, lenContCast, h]
    · intro h casted hc
      simp [runContainer, lenContTail, Nat.not_lt.mpr h, lenContCast_ok k e tokens casted hc]
    · intro h casted hc
      simp [runContainer, lenContTail, h, lenContCast_ok k e tokens casted hc]
    · intro h out
      have hc : tokens.length < 3 ∨ 3 < tokens.length := by omega
      rcases hc with hc | hc
      · simp [runContainer, lenContTail, lenContCast, hc]
      · simp [runContainer, lenContTail, lenContCast, hc, Nat.not_lt.mpr (Nat.le_of_lt hc)]
  · intro name b lengthA minA maxA hcont hs hb
    cases b with
    | scalar s => cases s <;> first | (exact absurd rfl hs) | (exact absurd rfl hb) | rfl
    | rawContainer k => rfl
    | container k args => exact absurd rfl (hcont k args)
    | otherB id => rfl

/-- Witness for C6: length 3/4/2 strings and token lists at the MaxLen,
MinLen and exact-length rules; an over-long uncastable token list is
rejected by the count check before any element cast; a length constraint on
`int` fails at build time. -/
theorem C6_length_constraints_witness :
    runScalar (.lenStr "x" none none (some (some 3))) "abc" = .ok (.strV "abc") ∧
    runScalar (.lenStr "x" none none (some (some 3))) "abcd" = .error (.maxChars "x" 3) ∧
    runScalar (.lenStr "x" none (some 3) none) "abc" = .ok (.strV "abc") ∧
    runScalar (.lenStr "x" none (some 3) none) "ab" = .error (.minChars "x" 3) ∧
    runScalar (.lenStr "x" none (some 3) (some (some 3))) "abc" = .ok (.strV "abc") ∧
    ¬ runScalar (.lenStr "x" none (some 3) (some (some 3))) "abcd" = .ok (.strV "abcd") ∧
    runContainer .listK (.lenContainer (.scalarE .intT) none (some 3)) ["1", "2", "3"] =
      .ok (.contV .listK [.numE 1, .numE 2, .numE 3]) ∧
    runContainer .listK (.lenContainer (.scalarE .intT) none (some 3)) ["a", "b", "c", "d"] =
      .error (.tooMany 3 4) ∧
    runContainer .listK (.lenContainer (.scalarE .intT) (some 3) none) ["1", "2"] =
      .error (.tooFew 3 2) ∧
    runContainer .listK (.lenContainer (.scalarE .intT) (some 3) (some 3)) ["1", "2", "3"] =
      .ok (.contV .listK [.numE 1, .numE 2, .numE 3]) ∧
    (∀ out, runContainer .listK (.lenContainer (.scalarE .intT) (some 3) (some 3)) ["1", "2"] ≠
      .ok out) ∧
    lenBuild "x" (.scalar .intT) none (some 3) none = .error (.invalidConstraintTarget "x") := by
  refine ⟨?_, ?_, ?_, ?_, ?_, ?_, ?_, ?_, ?_, ?_, ?_, ?_⟩
  · exact (C6_length_constraints.2.1 "x" "abc").1 (by decide)
  · exact (C6_length_constraints.2.1 "x" "abcd").2.1 (by decide)
  · exact (C6_length_constraints.2.1 "x" "abc").2.2.1 (by decide)
  · exact (C6_length_constraints.2.1 "x" "ab").2.2.2.1 (by decide)
  · exact ((C6_length_constraints.2.1 "x" "abc").2.2.2.2).mpr (by decide)
  · intro hcon
    exact absurd (((C6_length_constraints.2.1 "x" "abcd").2.2.2.2).mp hcon) (by decide)
  · exact (C6_length_constraints.2.2.2.1 .listK (.scalarE .intT) ["1", "2", "3"]).2.1
      (by decide) [.numE 1, .numE 2, .numE 3] (by decide)
  · exact (C6_length_constraints.2.2.2.1 .listK (.scalarE .intT) ["a", "b", "c", "d"]).1
      (by decide)
  · exact (C6_length_constraints.2.2.2.1 .listK (.scalarE .intT) ["1", "2"]).2.2.1 (by decide)
  · exact (C6_length_constraints.2.2.2.1 .listK (.scalarE .intT) ["1", "2", "3"]).2.2.2.2.1
      (by decide) [.numE 1, .numE 2, .numE 3] (by decide)
  · exact (C6_length_constraints.2.2.2.1 .listK (.scalarE .intT) ["1", "2"]).2.2.2.2.2
      (by decide)
  · exact C6_length_constraints.2.2.2.2 "x" (.scalar .intT) none (some 3) none
      (by intro k args h; cases h) (by decide) (by decide)

/-- C8, counterexample to the claim as stated.  First: the ellipsis marker
is not restricted to a trailing position — `tuple[int, ..., int]` (declared
element type arguments not all identical, ellipsis in the middle) builds
successfully, where the claim requires a build-time failure.  Second: an
element type with a registered scalar handler is not sufficient —
`list[bool]` passes every check the claim lists, yet building it raises
`AttributeError` (the `BoolHandler` class defines no `cast` attribute)
instead of producing a rule. -/
theorem C8_container_build_counterexample :
    get_kwargs "xs" (.plain (.container .tupleK [.scalarE .intT, .ellipsisE, .scalarE .intT])) =
      .ok (.containerRule .tupleK (.castContainer .intC)) ∧
    get_kwargs "xs" (.plain (.container .listK [.scalarE .boolT])) =
      .error (.noCastAttribute .boolH) := by
  exact ⟨by decide, by decide⟩

/-- C8, amended: building a container-typed parameter fails with a
configuration `TypeError` when the declaration has no element type argument;
fails likewise when some argument is neither the first argument nor an
ellipsis (the ellipsis marker is tolerated at any non-first position); fails
when the first argument has no registered handler (so containers of
subscripted containers are rejected); and when a handler exists, the build
succeeds only if that handler class defines a `cast` attribute (the int,
float, str and Path handlers do), producing a one-or-more rule that casts
each token via that attribute and wraps the results in the target container
— while bool and bytes element types, though registered, fail at build time
with an `AttributeError`. -/
theorem C8_container_build_amended :
    (∀ (k : ContainerKind) (name : String) (ty : ArgTy), getArgs ty = [] →
        containerBuild k name ty = .error (.mustSpecifyElementType k name)) ∧
    (∀ (k : ContainerKind) (name : String) (args : List ElemTy) (e0 : ElemTy),
        args.head? = some e0 → (∃ e ∈ args, e ≠ e0 ∧ e ≠ .ellipsisE) →
        containerBuild k name (.plain (.container k args)) =
          .error (.notHomogeneous k name)) ∧
    (∀ (k : ContainerKind) (name : String) (args : List ElemTy) (e0 : ElemTy),
        args.head? = some e0 → (∀ e ∈ args, e = e0 ∨ e = .ellipsisE) →
        typeHandlersGetElem e0 = none →
        containerBuild k name (.plain (.container k args)) =
          .error (.noElementHandler k e0)) ∧
    (∀ (k : ContainerKind) (name : String) (args : List ElemTy) (e0 : ElemTy)
        (h : HandlerCls),
        args.head? = some e0 → (∀ e ∈ args, e = e0 ∨ e = .ellipsisE) →
        typeHandlersGetElem e0 = some h → castAttr h = none →
        containerBuild k name (.plain (.container k args)) =
          .error (.noCastAttribute h)) ∧
    (∀ (k : ContainerKind) (name : String) (args : List ElemTy) (e0 : ElemTy)
        (h : HandlerCls) (c : CastTy),
        args.head? = some e0 → (∀ e ∈ args, e = e0 ∨ e = .ellipsisE) →
        typeHandlersGetElem e0 = some h → castAttr h = some c →
        containerBuild k name (.plain (.container k args)) =
          .ok (.containerRule k (.castContainer c)) ∧
        (∀ (tokens : List String) (casted : List Elem),
          tokens.mapM (castFn c) = .ok casted →
          runContainer k (.castContainer c) tokens = .ok (.contV k casted))) := by
  have hne : ∀ (args : List ElemTy) (e0 : ElemTy), args.head? = some e0 → args.isEmpty = false := by
    intro args e0 hh
    cases args with
    | nil => simp at hh
    | cons a rest => rfl
  have hD : ∀ (args : List ElemTy) (e0 : ElemTy), args.head? = some e0 →
      args.headD ElemTy.ellipsisE = e0 := by
    intro args e0 hh
    cases args with
    | nil => simp at hh
    | cons a rest => simp at hh; simp [hh]
  have hnoex : ∀ (args : List ElemTy) (e0 : ElemTy), (∀ e ∈ args, e = e0 ∨ e = .ellipsisE) →
      ¬ ∃ e ∈ args, ¬ e = e0 ∧ ¬ e = ElemTy.ellipsisE := by
    rintro args e0 hall ⟨e, he, h1, h2⟩
    rcases hall e he with h | h
    · exact h1 h
    · exact h2 h
  refine ⟨?_, ?_, ?_, ?_, ?_⟩
  · intro k name ty hargs
    simp [containerBuild, hargs]
  · intro k name args e0 hh hex
    simp only [containerBuild, getArgs, hne args e0 hh, Bool.false_eq_true, if_false,
      List.headD_eq_head?, hh, Option.getD_some]
    simp only [getOrigin, ne_eq, not_true_eq_false, if_false]
    rw [if_pos (by simpa using hex)]
  · intro k name args e0 hh hall hno
    simp only [containerBuild, getArgs, hne args e0 hh, Bool.false_eq_true, if_false,
      List.headD_eq_head?, hh, Option.getD_some]
    simp only [getOrigin, ne_eq, not_true_eq_false, if_false]
    rw [if_neg (by simpa using hnoex args e0 hall), hno]
  · intro k name args e0 h hh hall hsome hcast
    simp only [containerBuild, getArgs, hne args e0 hh, Bool.false_eq_true, if_false,
      List.headD_eq_head?, hh, Option.getD_some]
    simp only [getOrigin, ne_eq, not_true_eq_false, if_false]
    rw [if_neg (by simpa using hnoex args e0 hall), hsome]
    simp [hcast]
  · intro k name args e0 h c hh hall hsome hcast
    refine ⟨?_, ?_⟩
    · simp only [containerBuild, getArgs, hne args e0 hh, Bool.false_eq_true, if_false,
        List.headD_eq_head?, hh, Option.getD_some]
      simp only [getOrigin, ne_eq, not_true_eq_false, if_false]
      rw [if_neg (by simpa using hnoex args e0 hall), hsome]
      simp [hcast]
    · intro tokens casted hc
      show (do
        let cs ← tokens.mapM (castFn c)
        pure (PyVal.contV k cs) : Except ParseErr PyVal) = .ok (.contV k casted)
      rw [hc]
      rfl

/-- Witness for the amended C8: the bare list, a heterogeneous tuple, a
container-of-container element, the castless bool element, and the
successful `list[int]` whose rule casts tokens and wraps them. -/
theorem C8_container_build_amended_witness :
    containerBuild .listK "xs" (.plain (.rawContainer .listK)) =
      .error (.mustSpecifyElementType .listK "xs") ∧
    containerBuild .tupleK "xs" (.plain (.container .tupleK [.scalarE .intT, .scalarE .strT])) =
      .error (.notHomogeneous .tupleK "xs") ∧
    containerBuild .listK "xs" (.plain (.container .listK [.subscriptedE .listK 0])) =
      .error (.noElementHandler .listK (.subscriptedE .listK 0)) ∧
    containerBuild .listK "xs" (.plain (.container .listK [.scalarE .boolT])) =
      .error (.noCastAttribute .boolH) ∧
    containerBuild .listK "xs" (.plain (.container .listK [.scalarE .intT])) =
      .ok (.containerRule .listK (.castContainer .intC)) ∧
    runContainer .listK (.castContainer .intC) ["1", "2"] =
      .ok (.contV .listK [.numE 1, .numE 2]) := by
  refine ⟨?_, ?_, ?_, ?_, ?_, ?_⟩
  · exact C8_container_build_amended.1 .listK "xs" (.plain (.rawContainer .listK)) (by decide)
  · exact C8_container_build_amended.2.1 .tupleK "xs" [.scalarE .intT, .scalarE .strT]
      (.scalarE .intT) (by decide) ⟨.scalarE .strT, by decide, by decide, by decide⟩
  · exact C8_container_build_amended.2.2.1 .listK "xs" [.subscriptedE .listK 0]
      (.subscriptedE .listK 0) (by decide) (by decide) (by decide)
  · exact C8_container_build_amended.2.2.2.1 .listK "xs" [.scalarE .boolT] (.scalarE .boolT)
      .boolH (by decide) (by decide) (by decide) (by decide)
  · exact (C8_container_build_amended.2.2.2.2 .listK "xs" [.scalarE .intT] (.scalarE .intT)
      .intH .intC (by decide) (by decide) (by decide) (by decide)).1
  · exact (C8_container_build_amended.2.2.2.2 .listK "xs" [.scalarE .intT] (.scalarE .intT)
      .intH .intC (by decide) (by decide) (by decide) (by decide)).2 ["1", "2"]
      [.numE 1, .numE 2] (by decide)

/-- C3: type resolution.  A constraint-wrapped type delegates to the
handler registered for the first registered constraint tag, passing the
extracted base type and constraint; when no tag is registered the resolver
fails (the spec's `UnsupportedConstraintError`, raised in the code as the
single no-registered-handler `TypeError`, since the fall-through probes
cannot match an `Annotated` object).  An unwrapped type is looked up by
exact type first, then by its container origin; when neither probe succeeds
it fails (the spec's `UnsupportedTypeError`, the same `TypeError` raise). -/
theorem C3_type_resolution :
    (∀ (name : String) (base : BaseTy) (metas : List Meta) (m : Meta),
        metas.find? registeredMeta = some m →
        get_kwargs name (.annotated base metas) = buildAnnotated name base m) ∧
    (∀ (name : String) (base : BaseTy) (metas : List Meta),
        (∀ m ∈ metas, registeredMeta m = false) →
        get_kwargs name (.annotated base metas) =
          .error (.noRegisteredHandler (.annotated base metas))) ∧
    (∀ (name : String) (b : BaseTy) (h : HandlerCls),
        typeHandlersGetExact (.plain b) = some h →
        get_kwargs name (.plain b) = buildType h name (.plain b)) ∧
    (∀ (name : String) (b : BaseTy) (h : HandlerCls),
        typeHandlersGetExact (.plain b) = none →
        typeHandlersGetOrigin (getOrigin (.plain b)) = some h →
        get_kwargs name (.plain b) = buildType h name (.plain b)) ∧
    (∀ (name : String) (b : BaseTy),
        typeHandlersGetExact (.plain b) = none →
        typeHandlersGetOrigin (getOrigin (.plain b)) = none →
        get_kwargs name (.plain b) = .error (.noRegisteredHandler (.plain b))) := by
  refine ⟨?_, ?_, ?_, ?_, ?_⟩
  · intro name base metas m hm
    simp [get_kwargs, hm]
  · intro name base metas hm
    have hf : metas.find? registeredMeta = none := by
      rw [List.find?_eq_none]
      intro m hmem
      simp [hm m hmem]
    simp [get_kwargs, hf, typeFallback, typeHandlersGetExact, getOrigin,
      typeHandlersGetOrigin, Option.orElse]
  · intro name b h hh
    simp [get_kwargs, typeFallback, hh, Option.orElse]
  · intro name b h hex hor
    simp [get_kwargs, typeFallback, hex, hor, Option.orElse]
  · intro name b hex hor
    simp [get_kwargs, typeFallback, hex, hor, Option.orElse]

/-- Witness for C3: a registered constraint tag delegates, an unregistered
one fails, a scalar resolves by exact lookup, a subscripted container by
origin fallback, and an unknown type fails. -/
theorem C3_type_resolution_witness :
    get_kwargs "x" (.annotated (.scalar .intT) [.gtM 10]) =
      buildAnnotated "x" (.scalar .intT) (.gtM 10) ∧
    get_kwargs "x" (.annotated (.scalar .intT) [.otherMeta 3]) =
      .error (.noRegisteredHandler (.annotated (.scalar .intT) [.otherMeta 3])) ∧
    get_kwargs "x" (.plain (.scalar .intT)) = buildType .intH "x" (.plain (.scalar .intT)) ∧
    get_kwargs "x" (.plain (.container .listK [.scalarE .intT])) =
      buildType .listH "x" (.plain (.container .listK [.scalarE .intT])) ∧
    get_kwargs "x" (.plain (.otherB 9)) = .error (.noRegisteredHandler (.plain (.otherB 9))) := by
  refine ⟨?_, ?_, ?_, ?_, ?_⟩
  · exact C3_type_resolution.1 "x" (.scalar .intT) [.gtM 10] (.gtM 10) (by decide)
  · exact C3_type_resolution.2.1 "x" (.scalar .intT) [.otherMeta 3] (by decide)
  · exact C3_type_resolution.2.2.1 "x" (.scalar .intT) .intH (by decide)
  · exact C3_type_resolution.2.2.2.1 "x" (.container .listK [.scalarE .intT]) .listH
      (by decide) (by decide)
  · exact C3_type_resolution.2.2.2.2 "x" (.otherB 9) (by decide) (by decide)

/-- Witness for C10: a handler returning the string value `"result"` is
dispatched; `runner` and `main` still return `None`. -/
theorem C10_dispatch_discards_result_witness :
    (runner (fun _ _ => PyVal.strV "result")
        [("command", PyVal.strV "add"), ("func", PyVal.funcV 4), ("x", PyVal.numV 3)]).2 =
      some PyVal.noneV ∧
    mainReturn (fun _ _ => PyVal.strV "result")
        [("command", PyVal.strV "add"), ("func", PyVal.funcV 4), ("x", PyVal.numV 3)] =
      some PyVal.noneV :=
  C10_dispatch_discards_result (fun _ _ => PyVal.strV "result")
    [("command", PyVal.strV "add"), ("func", PyVal.funcV 4), ("x", PyVal.numV 3)]
    (PyVal.funcV 4) [("x", PyVal.numV 3)] (by decide)

end Anci
